import Mathlib

/-!
Verification of the Blink Tac Toe game engine
(source: `src/blink-tac-toe/app/page.tsx`).

The React component keeps its whole game state in a handful of `useState`
variables (`board`, `currentPlayer`, `gameState`, `winner`, `emojiCounts`,
`gameStats`).  We embed that state as the structure `Game` below and the three
state-transforming functions of the component as pure Lean functions:

* `checkWinner`    — the `checkWinner` callback (lines 77–101);
* `ageEmojis`      — the `ageEmojis` callback (lines 104–123), split into the
                     decrement phase `ageMap`, the removal phase
                     `removeExpired`, and the vanished-cell count
                     `vanishedCount`, exactly as the source computes them;
* `handleCellClick`— the click handler (lines 126–167).  The source draws a
                     random glyph and a fresh id; we pass both in as arguments
                     (an injectable random source), which is the only way a
                     deterministic embedding can model `Math.random()`.  The
                     returned `Bool` records whether `setTimeout(ageEmojis)`
                     was scheduled (line 166);
* `evaluateOutcome`— the post-aging re-evaluation `useEffect` (lines 180–192);
* `resetGame`      — the reset handler (lines 170–177).

Sound playback (`playSound`) touches no game state and is omitted.
-/

namespace BlinkTacToe

/-- Player identifiers 1 and 2 (the TypeScript type `1 | 2`). -/
inductive Player where
  | P1 : Player
  | P2 : Player
deriving DecidableEq, Repr

/-- `const BLINK_DURATION = 3` (line 24). -/
def BLINK_DURATION : Nat := 3

/-- `const MAX_EMOJIS_PER_PLAYER = 6` (line 25). -/
def MAX_EMOJIS_PER_PLAYER : Nat := 6

/-- The `CellValue` record (lines 10–15): placed glyph, owning player,
remaining lifetime in turns, and a unique id string. -/
structure CellValue where
  emoji : String
  player : Player
  turnsLeft : Nat
  id : String
deriving DecidableEq, Repr

/-- The board: 9 nullable cells, indices 0–8 row-major (line 28). -/
abbrev Board := Fin 9 → Option CellValue

/-- `type GameState = "playing" | "won" | "draw"` (line 17). -/
inductive GameState where
  | playing : GameState
  | won : GameState
  | draw : GameState
deriving DecidableEq, Repr

/-- The `lines` array of `checkWinner` (lines 78–87): 3 rows, then 3 columns,
then 2 diagonals, in source order. -/
def WINNING_LINES : List (Fin 9 × Fin 9 × Fin 9) :=
  [(0, 1, 2), (3, 4, 5), (6, 7, 8),
   (0, 3, 6), (1, 4, 7), (2, 5, 8),
   (0, 4, 8), (2, 4, 6)]

/-- The body of the `for` loop of `checkWinner` (lines 89–99): a line yields a
winner exactly when its three cells are non-null and share one owner. -/
def lineWinner (b : Board) (l : Fin 9 × Fin 9 × Fin 9) : Option Player :=
  match b l.1, b l.2.1, b l.2.2 with
  | some x, some y, some z =>
      if x.player = y.player ∧ y.player = z.player then some x.player else none
  | _, _, _ => none

/-- `checkWinner` (lines 77–101): return the owner of the first matching line,
`none` when the loop falls through. -/
def checkWinner (b : Board) : Option Player :=
  WINNING_LINES.findSome? (lineWinner b)

/-- The decrement phase of `ageEmojis` (lines 106–111): every non-null cell
with `turnsLeft > 0` loses one turn; other slots are kept as they are. -/
def ageMap (b : Board) : Board := fun i =>
  match b i with
  | some cell =>
      if cell.turnsLeft > 0 then some { cell with turnsLeft := cell.turnsLeft - 1 }
      else some cell
  | none => none

/-- The filter predicate of line 114: a decremented slot holds an expired
cell. -/
def isExpired : Option CellValue → Bool
  | some cell => cell.turnsLeft == 0
  | none => false

/-- `vanishedCount` (line 114): the number of slots whose decremented cell has
`turnsLeft === 0` while the slot was non-null in `prevBoard`. -/
def vanishedCount (prevBoard : Board) : Nat :=
  (Finset.univ.filter
    (fun i : Fin 9 => isExpired (ageMap prevBoard i) = true ∧ (prevBoard i).isSome = true)).card

/-- The removal phase of `ageEmojis` (line 121): cells at `turnsLeft === 0`
become null. -/
def removeExpired (b : Board) : Board := fun i =>
  match b i with
  | some cell => if cell.turnsLeft = 0 then none else some cell
  | none => none

/-- The board produced by one full aging pass. -/
def agedBoard (b : Board) : Board := removeExpired (ageMap b)

/-- The whole component state: the seven `useState` variables that constitute
the game engine (lines 28–34; `soundEnabled` has no effect on game state and
is omitted). `gameStats` is flattened into `moves` and `vanishedEmojis`. -/
structure Game where
  board : Board
  currentPlayer : Player
  gameState : GameState
  winner : Option Player
  emojiCounts : Player → Nat
  moves : Nat
  vanishedEmojis : Nat

/-- `ageEmojis` (lines 104–123) as a state transformer: age the board and,
when at least one cell vanished, add the count to the vanished statistic
(lines 116–119). -/
def ageEmojis (s : Game) : Game :=
  { s with
    board := agedBoard s.board,
    vanishedEmojis :=
      if 0 < vanishedCount s.board then s.vanishedEmojis + vanishedCount s.board
      else s.vanishedEmojis }

/-- `currentPlayer === 1 ? 2 : 1` (line 165). -/
def switchPlayer : Player → Player
  | Player.P1 => Player.P2
  | Player.P2 => Player.P1

/-- `handleCellClick` (lines 126–167).  `glyph` and `ident` stand for the
randomly drawn emoji and the fresh id of lines 131–137.  The result pairs the
new state with `true` exactly when line 166 schedules an aging pass. -/
def handleCellClick (s : Game) (index : Fin 9) (glyph ident : String) : Game × Bool :=
  if (s.board index).isSome = true ∨ s.gameState ≠ GameState.playing ∨
      MAX_EMOJIS_PER_PLAYER ≤ s.emojiCounts s.currentPlayer then
    (s, false)
  else
    let newCell : CellValue :=
      { emoji := glyph, player := s.currentPlayer, turnsLeft := BLINK_DURATION, id := ident }
    let newBoard : Board := Function.update s.board index (some newCell)
    let s1 : Game :=
      { s with
        board := newBoard,
        emojiCounts :=
          Function.update s.emojiCounts s.currentPlayer (s.emojiCounts s.currentPlayer + 1),
        moves := s.moves + 1 }
    match checkWinner newBoard with
    | some w => ({ s1 with winner := some w, gameState := GameState.won }, false)
    | none =>
        if ∀ j : Fin 9, (newBoard j).isSome = true then
          ({ s1 with gameState := GameState.draw }, false)
        else
          ({ s1 with currentPlayer := switchPlayer s.currentPlayer }, true)

/-- The re-evaluation `useEffect` (lines 180–192): while playing, a winner on
the current board ends the game as `won`; otherwise, when every slot is null
and at least one move has been made, the game ends as `draw`. -/
def evaluateOutcome (s : Game) : Game :=
  if s.gameState = GameState.playing then
    match checkWinner s.board with
    | some w => { s with winner := some w, gameState := GameState.won }
    | none =>
        if (∀ j : Fin 9, s.board j = none) ∧ 0 < s.moves then
          { s with gameState := GameState.draw }
        else s
  else s

/-- One delayed aging pass as observed by the component: the `ageEmojis`
callback fires and the re-evaluation effect runs on the resulting board. -/
def ageStep (s : Game) : Game := evaluateOutcome (ageEmojis s)

/-- The initial component state (lines 28–34). -/
def initialGame : Game :=
  { board := fun _ => none,
    currentPlayer := Player.P1,
    gameState := GameState.playing,
    winner := none,
    emojiCounts := fun _ => 0,
    moves := 0,
    vanishedEmojis := 0 }

/-- `resetGame` (lines 170–177) restores the initial state. -/
def resetGame (_ : Game) : Game := initialGame

/-- The events that mutate the engine state: a click, a scheduled aging pass,
or a reset. -/
inductive Step : Game → Game → Prop where
  | click (s : Game) (index : Fin 9) (glyph ident : String) :
      Step s (handleCellClick s index glyph ident).1
  | age (s : Game) : Step s (ageStep s)
  | reset (s : Game) : Step s (resetGame s)

/-- States reachable from the initial state by any event sequence. -/
inductive Reachable : Game → Prop where
  | init : Reachable initialGame
  | step {s t : Game} : Reachable s → Step s t → Reachable t

/-- Contribution of one slot to a player's live-cell count. -/
def ownedVal (p : Player) : Option CellValue → Nat
  | some cell => if cell.player = p then 1 else 0
  | none => 0

/-- Number of live cells on the board owned by player `p`. -/
def liveCount (p : Player) (b : Board) : Nat := ∑ i : Fin 9, ownedVal p (b i)

/-! ### Helper lemmas -/

/-- Pointwise description of one aging pass: a null slot stays null, a cell
with at most one turn left vanishes, any other cell loses one turn. -/
lemma agedBoard_apply (b : Board) (i : Fin 9) :
    agedBoard b i =
      match b i with
      | none => none
      | some c =>
          if c.turnsLeft ≤ 1 then none
          else some { c with turnsLeft := c.turnsLeft - 1 } := by
  unfold agedBoard removeExpired ageMap
  cases hbi : b i with
  | none => simp
  | some c =>
      by_cases h0 : c.turnsLeft = 0
      · simp [h0]
      · have hpos : 0 < c.turnsLeft := Nat.pos_of_ne_zero h0
        by_cases h1 : c.turnsLeft = 1
        · simp [h1]
        · have hle : ¬ c.turnsLeft ≤ 1 := by omega
          have hne : ¬ c.turnsLeft - 1 = 0 := by omega
          simp [hpos, hne, hle]

lemma ageEmojis_board (s : Game) : (ageEmojis s).board = agedBoard s.board := rfl

lemma ageEmojis_gameState (s : Game) : (ageEmojis s).gameState = s.gameState := rfl

lemma ageEmojis_currentPlayer (s : Game) : (ageEmojis s).currentPlayer = s.currentPlayer := rfl

lemma ageEmojis_emojiCounts (s : Game) : (ageEmojis s).emojiCounts = s.emojiCounts := rfl

lemma ageEmojis_moves (s : Game) : (ageEmojis s).moves = s.moves := rfl

lemma evaluateOutcome_board (s : Game) : (evaluateOutcome s).board = s.board := by
  unfold evaluateOutcome
  repeat' split
  all_goals rfl

lemma evaluateOutcome_currentPlayer (s : Game) :
    (evaluateOutcome s).currentPlayer = s.currentPlayer := by
  unfold evaluateOutcome
  repeat' split
  all_goals rfl

lemma evaluateOutcome_emojiCounts (s : Game) :
    (evaluateOutcome s).emojiCounts = s.emojiCounts := by
  unfold evaluateOutcome
  repeat' split
  all_goals rfl

lemma evaluateOutcome_moves (s : Game) : (evaluateOutcome s).moves = s.moves := by
  unfold evaluateOutcome
  repeat' split
  all_goals rfl

/-- First-match semantics of `List.findSome?`, mirroring a `for` loop with an
early `return`: the result is `some y` exactly when some position yields `y`
and every earlier position yields nothing. -/
lemma findSome?_first_match {α β : Type} (f : α → Option β) (d : α) :
    ∀ (l : List α) (y : β),
      l.findSome? f = some y ↔
        ∃ k, k < l.length ∧ f (l.getD k d) = some y ∧
          ∀ j, j < k → f (l.getD j d) = none := by
  intro l
  induction l with
  | nil => intro y; simp
  | cons a t ih =>
      intro y
      rw [List.findSome?_cons]
      cases hfa : f a with
      | some z =>
          simp only []
          constructor
          · intro h
            refine ⟨0, by simp, ?_, fun j hj => absurd hj (Nat.not_lt_zero j)⟩
            simpa [hfa] using h
          · rintro ⟨k, hk, hval, hprev⟩
            cases k with
            | zero => simpa [hfa] using hval
            | succ k' =>
                have h0 := hprev 0 (Nat.succ_pos k')
                rw [List.getD_cons_zero, hfa] at h0
                exact absurd h0 (by simp)
      | none =>
          simp only []
          rw [ih y]
          constructor
          · rintro ⟨k, hk, hval, hprev⟩
            refine ⟨k + 1, by simpa using Nat.succ_lt_succ hk, by simpa using hval, ?_⟩
            intro j hj
            cases j with
            | zero => simpa using hfa
            | succ j' => simpa using hprev j' (by omega)
          · rintro ⟨k, hk, hval, hprev⟩
            cases k with
            | zero => rw [List.getD_cons_zero, hfa] at hval; exact absurd hval (by simp)
            | succ k' =>
                refine ⟨k', by simpa using hk, by simpa using hval, ?_⟩
                intro j hj
                have := hprev (j + 1) (Nat.succ_lt_succ hj)
                simpa using this

/-- A line yields winner `p` exactly when its three cells are all occupied
and all owned by `p`. -/
lemma lineWinner_eq_some_iff (b : Board) (l : Fin 9 × Fin 9 × Fin 9) (p : Player) :
    lineWinner b l = some p ↔
      ∃ x y z : CellValue, b l.1 = some x ∧ b l.2.1 = some y ∧ b l.2.2 = some z ∧
        x.player = p ∧ y.player = p ∧ z.player = p := by
  unfold lineWinner
  cases hx : b l.1 <;> cases hy : b l.2.1 <;> cases hz : b l.2.2 <;> simp
  case some.some.some x y z =>
      constructor
      · rintro ⟨⟨h1, h2⟩, hp⟩
        exact ⟨hp, by rw [← h1]; exact hp, by rw [← h2, ← h1]; exact hp⟩
      · rintro ⟨hp, hyp, hzp⟩
        exact ⟨⟨hp.trans hyp.symm, hyp.trans hzp.symm⟩, hp⟩

/-! ### Claims -/

/-- C3: a move attempt on an occupied cell, outside the `playing` state, or
with the active player's placement counter at `MAX_EMOJIS_PER_PLAYER` is
silently rejected: the returned state is exactly the previous one (board,
counters, active player, game state and statistics untouched) and no aging
pass is scheduled. -/
theorem invalid_move_rejected (s : Game) (index : Fin 9) (glyph ident : String)
    (h : (s.board index).isSome = true ∨ s.gameState ≠ GameState.playing ∨
      MAX_EMOJIS_PER_PLAYER ≤ s.emojiCounts s.currentPlayer) :
    handleCellClick s index glyph ident = (s, false) := by
  unfold handleCellClick
  rw [if_pos h]

/-- Occupied-cell instance of `invalid_move_rejected`: clicking cell 0 twice
in a row from the initial state leaves the second click without effect. -/
theorem invalid_move_rejected_witness :
    ((((handleCellClick initialGame 0 "f" "a").1.board 0).isSome = true ∨
        (handleCellClick initialGame 0 "f" "a").1.gameState ≠ GameState.playing ∨
        MAX_EMOJIS_PER_PLAYER ≤
          (handleCellClick initialGame 0 "f" "a").1.emojiCounts
            (handleCellClick initialGame 0 "f" "a").1.currentPlayer) ∧
      handleCellClick (handleCellClick initialGame 0 "f" "a").1 0 "g" "b" =
        ((handleCellClick initialGame 0 "f" "a").1, false)) :=
  ⟨Or.inl (by decide),
    invalid_move_rejected (handleCellClick initialGame 0 "f" "a").1 0 "g" "b"
      (Or.inl (by decide))⟩

/-- C5: one aging pass, applied to any board, turns a null slot into a null
slot, removes exactly the cells whose decremented lifetime reaches 0, keeps
every other cell with its lifetime decremented by exactly 1, and the count it
reports for the vanished statistic equals the number of cells the pass
removed. -/
theorem ageCells_spec (b : Board) :
    (∀ i : Fin 9, ∀ c : CellValue, b i = some c →
        (c.turnsLeft - 1 = 0 → agedBoard b i = none) ∧
        (c.turnsLeft - 1 ≠ 0 →
          agedBoard b i = some { c with turnsLeft := c.turnsLeft - 1 })) ∧
    (∀ i : Fin 9, b i = none → agedBoard b i = none) ∧
    vanishedCount b =
      (Finset.univ.filter
        (fun i : Fin 9 => (b i).isSome = true ∧ agedBoard b i = none)).card := by
  refine ⟨fun i c hbi => ?_, fun i hbi => ?_, ?_⟩
  · constructor
    · intro hz
      rw [agedBoard_apply, hbi]
      simp [show c.turnsLeft ≤ 1 by omega]
    · intro hnz
      rw [agedBoard_apply, hbi]
      simp [show ¬ c.turnsLeft ≤ 1 by omega]
  · rw [agedBoard_apply, hbi]
  · unfold vanishedCount
    congr 1
    apply Finset.filter_congr
    intro i _
    cases hbi : b i with
    | none => simp [ageMap, hbi, isExpired]
    | some c =>
        rw [agedBoard_apply, hbi]
        by_cases h1 : c.turnsLeft ≤ 1
        · have : c.turnsLeft - 1 = 0 := by omega
          by_cases h0 : c.turnsLeft = 0
          · simp [ageMap, hbi, isExpired, h0, h1]
          · have hpos : 0 < c.turnsLeft := Nat.pos_of_ne_zero h0
            simp [ageMap, hbi, isExpired, hpos, h1, this]
        · have hpos : 0 < c.turnsLeft := by omega
          have : ¬ c.turnsLeft - 1 = 0 := by omega
          simp [ageMap, hbi, isExpired, hpos, h1, this]

/-- Instance of `ageCells_spec` on the one-cell board produced by the first
click: the fresh cell (3 turns left) survives the pass with 2 turns left. -/
theorem ageCells_spec_witness :
    (handleCellClick initialGame 0 "f" "a").1.board 0 =
        some { emoji := "f", player := Player.P1, turnsLeft := 3, id := "a" } ∧
      agedBoard (handleCellClick initialGame 0 "f" "a").1.board 0 =
        some { emoji := "f", player := Player.P1, turnsLeft := 2, id := "a" } :=
  ⟨by decide,
    ((ageCells_spec (handleCellClick initialGame 0 "f" "a").1.board).1 0
        { emoji := "f", player := Player.P1, turnsLeft := 3, id := "a" }
        (by decide)).2 (by decide)⟩

/-- C8: `checkWinner` scans exactly the 8 fixed triples, in the order
3 rows, 3 columns, 2 diagonals, and returns the owner of the first triple
whose three cells are occupied by one player; it returns `none` exactly when
no triple is fully owned. -/
theorem checkWinner_spec (b : Board) :
    WINNING_LINES =
        [(0, 1, 2), (3, 4, 5), (6, 7, 8),
         (0, 3, 6), (1, 4, 7), (2, 5, 8),
         (0, 4, 8), (2, 4, 6)] ∧
    (∀ l : Fin 9 × Fin 9 × Fin 9, ∀ p : Player,
        lineWinner b l = some p ↔
          ∃ x y z : CellValue, b l.1 = some x ∧ b l.2.1 = some y ∧ b l.2.2 = some z ∧
            x.player = p ∧ y.player = p ∧ z.player = p) ∧
    (∀ p : Player, checkWinner b = some p ↔
        ∃ k, k < WINNING_LINES.length ∧
          lineWinner b (WINNING_LINES.getD k (0, 1, 2)) = some p ∧
          ∀ j, j < k → lineWinner b (WINNING_LINES.getD j (0, 1, 2)) = none) ∧
    (checkWinner b = none ↔ ∀ l ∈ WINNING_LINES, lineWinner b l = none) := by
  refine ⟨rfl, lineWinner_eq_some_iff b, fun p => ?_, ?_⟩
  · exact findSome?_first_match (lineWinner b) (0, 1, 2) WINNING_LINES p
  · exact List.findSome?_eq_none_iff

/-- A board whose top row is fully owned by player 1. -/
def winBoard : Board :=
  ![some { emoji := "f", player := Player.P1, turnsLeft := 3, id := "a" },
    some { emoji := "g", player := Player.P1, turnsLeft := 2, id := "b" },
    some { emoji := "h", player := Player.P1, turnsLeft := 1, id := "c" },
    none, none, none, none, none, none]

/-- Instance of `checkWinner_spec`: the top row owned by player 1 is found
first. -/
theorem checkWinner_spec_witness : checkWinner winBoard = some Player.P1 :=
  ((checkWinner_spec winBoard).2.2.1 Player.P1).mpr
    ⟨0, by decide, by decide, fun j hj => absurd hj (Nat.not_lt_zero j)⟩

/-- C9: a cell with one turn left is removed by the first aging pass, and its
slot is still empty after a second pass: aging is idempotent on a slot once
it has been emptied. -/
theorem aging_removes_expiring_cell (b : Board) (i : Fin 9) (c : CellValue)
    (hb : b i = some c) (h1 : c.turnsLeft = 1) :
    agedBoard b i = none ∧ agedBoard (agedBoard b) i = none := by
  have h : agedBoard b i = none := by
    rw [agedBoard_apply, hb]
    simp [h1]
  refine ⟨h, ?_⟩
  rw [agedBoard_apply, h]

/-- Instance of `aging_removes_expiring_cell` on a concrete one-cell board
holding a cell with a single turn left. -/
theorem aging_removes_expiring_cell_witness :
    (fun _ : Fin 9 => some { emoji := "f", player := Player.P1, turnsLeft := 1, id := "a" } :
        Board) 4 = some { emoji := "f", player := Player.P1, turnsLeft := 1, id := "a" } ∧
      agedBoard
        (fun _ : Fin 9 => some { emoji := "f", player := Player.P1, turnsLeft := 1, id := "a" })
        4 = none :=
  ⟨rfl,
    (aging_removes_expiring_cell
        (fun _ : Fin 9 => some { emoji := "f", player := Player.P1, turnsLeft := 1, id := "a" })
        4 { emoji := "f", player := Player.P1, turnsLeft := 1, id := "a" } rfl rfl).1⟩

/-- In a valid move, every branch of `handleCellClick` carries the board with
the new cell written at the clicked index. -/
lemma handleCellClick_board_valid (s : Game) (i : Fin 9) (g d : String)
    (hcond : ¬ ((s.board i).isSome = true ∨ s.gameState ≠ GameState.playing ∨
      MAX_EMOJIS_PER_PLAYER ≤ s.emojiCounts s.currentPlayer)) :
    (handleCellClick s i g d).1.board =
      Function.update s.board i
        (some { emoji := g, player := s.currentPlayer, turnsLeft := BLINK_DURATION, id := d }) := by
  unfold handleCellClick
  rw [if_neg hcond]
  simp only []
  split
  · rfl
  · split
    · rfl
    · rfl

/-- C7: a valid move that produces a terminal outcome ends the turn at once.
The winner check is made first and without regard to fullness (a winning move
is `won` even on a full board), and in both terminal branches the active
player is not switched and no aging pass is scheduled. -/
theorem terminal_move_stops (s : Game) (i : Fin 9) (g d : String)
    (hempty : s.board i = none) (hplay : s.gameState = GameState.playing)
    (hcnt : s.emojiCounts s.currentPlayer < MAX_EMOJIS_PER_PLAYER) :
    (∀ w : Player, checkWinner ((handleCellClick s i g d).1.board) = some w →
        (handleCellClick s i g d).1.gameState = GameState.won ∧
        (handleCellClick s i g d).1.winner = some w ∧
        (handleCellClick s i g d).1.currentPlayer = s.currentPlayer ∧
        (handleCellClick s i g d).2 = false) ∧
    (checkWinner ((handleCellClick s i g d).1.board) = none →
      (∀ j : Fin 9, ((handleCellClick s i g d).1.board j).isSome = true) →
        (handleCellClick s i g d).1.gameState = GameState.draw ∧
        (handleCellClick s i g d).1.currentPlayer = s.currentPlayer ∧
        (handleCellClick s i g d).2 = false) := by
  have hcond : ¬ ((s.board i).isSome = true ∨ s.gameState ≠ GameState.playing ∨
      MAX_EMOJIS_PER_PLAYER ≤ s.emojiCounts s.currentPlayer) := by
    push_neg
    exact ⟨by simp [hempty], hplay, by omega⟩
  have hb := handleCellClick_board_valid s i g d hcond
  constructor
  · intro w hw
    rw [hb] at hw
    unfold handleCellClick
    rw [if_neg hcond]
    simp only [hw]
    exact ⟨trivial, trivial, trivial, trivial⟩
  · intro hnw hfull
    rw [hb] at hnw
    rw [hb] at hfull
    unfold handleCellClick
    rw [if_neg hcond]
    simp only [hnw, if_pos hfull]
    exact ⟨trivial, trivial, trivial⟩

/-- A mid-game position: player 1 owns cells 0 and 1, two emojis placed. -/
def preWinGame : Game :=
  { initialGame with
      board :=
        ![some { emoji := "f", player := Player.P1, turnsLeft := 3, id := "a" },
          some { emoji := "g", player := Player.P1, turnsLeft := 2, id := "b" },
          none, none, none, none, none, none, none],
      emojiCounts := fun p => match p with | Player.P1 => 2 | Player.P2 => 0 }

/-- Instance of `terminal_move_stops`: completing the top row wins at once,
keeps player 1 active and schedules no aging. -/
theorem terminal_move_stops_witness :
    (preWinGame.board 2 = none ∧ preWinGame.gameState = GameState.playing ∧
        preWinGame.emojiCounts preWinGame.currentPlayer < MAX_EMOJIS_PER_PLAYER ∧
        checkWinner ((handleCellClick preWinGame 2 "h" "c").1.board) = some Player.P1) ∧
      ((handleCellClick preWinGame 2 "h" "c").1.gameState = GameState.won ∧
        (handleCellClick preWinGame 2 "h" "c").1.winner = some Player.P1 ∧
        (handleCellClick preWinGame 2 "h" "c").1.currentPlayer = preWinGame.currentPlayer ∧
        (handleCellClick preWinGame 2 "h" "c").2 = false) :=
  ⟨⟨by decide, by decide, by decide, by decide⟩,
    (terminal_move_stops preWinGame 2 "h" "c" (by decide) (by decide) (by decide)).1
      Player.P1 (by decide)⟩

/-- The guard of `handleCellClick` (line 127): an occupied cell, a
non-playing state or a full placement counter returns the state unchanged. -/
lemma handleCellClick_invalid (s : Game) (index : Fin 9) (glyph ident : String)
    (h : (s.board index).isSome = true ∨ s.gameState ≠ GameState.playing ∨
      MAX_EMOJIS_PER_PLAYER ≤ s.emojiCounts s.currentPlayer) :
    handleCellClick s index glyph ident = (s, false) := by
  unfold handleCellClick
  rw [if_pos h]

/-- In a valid move, every branch of `handleCellClick` writes the new cell,
increments the mover's counter and the move count, and leaves the vanished
statistic alone. -/
lemma handleCellClick_valid_fields (s : Game) (i : Fin 9) (g d : String)
    (hcond : ¬ ((s.board i).isSome = true ∨ s.gameState ≠ GameState.playing ∨
      MAX_EMOJIS_PER_PLAYER ≤ s.emojiCounts s.currentPlayer)) :
    (handleCellClick s i g d).1.board =
      Function.update s.board i
        (some { emoji := g, player := s.currentPlayer, turnsLeft := BLINK_DURATION, id := d }) ∧
    (handleCellClick s i g d).1.emojiCounts =
      Function.update s.emojiCounts s.currentPlayer (s.emojiCounts s.currentPlayer + 1) ∧
    (handleCellClick s i g d).1.moves = s.moves + 1 ∧
    (handleCellClick s i g d).1.vanishedEmojis = s.vanishedEmojis := by
  unfold handleCellClick
  rw [if_neg hcond]
  simp only []
  refine ⟨?_, ?_, ?_, ?_⟩ <;>
    (first
      | (split
         · rfl
         · split <;> rfl))

/-- Aging never adds to a slot's contribution to an owner's live count. -/
lemma ownedVal_aged_le (p : Player) (b : Board) (i : Fin 9) :
    ownedVal p (agedBoard b i) ≤ ownedVal p (b i) := by
  rw [agedBoard_apply]
  cases b i with
  | none => exact le_rfl
  | some c =>
      by_cases h : c.turnsLeft ≤ 1
      · simp [h, ownedVal]
      · simp [h, ownedVal]

/-- Aging never increases a player's live-cell count. -/
lemma liveCount_aged_le (p : Player) (b : Board) :
    liveCount p (agedBoard b) ≤ liveCount p b :=
  Finset.sum_le_sum fun i _ => ownedVal_aged_le p b i

/-- Placing a cell on an empty slot adds exactly that cell's contribution to
a player's live-cell count. -/
lemma liveCount_update (p : Player) (b : Board) (i : Fin 9) (c : CellValue)
    (h : b i = none) :
    liveCount p (Function.update b i (some c)) = liveCount p b + ownedVal p (some c) := by
  unfold liveCount
  rw [Finset.sum_congr rfl
    (fun x _ => Function.apply_update (fun _ v => ownedVal p v) b i (some c) x)]
  rw [Finset.sum_update_of_mem (Finset.mem_univ i)]
  have hz : ownedVal p (b i) = 0 := by rw [h]; rfl
  have hsum := Finset.sum_eq_sum_diff_singleton_add (Finset.mem_univ i)
    (fun x => ownedVal p (b x))
  rw [hz] at hsum
  omega

/-- Inductive invariant tying live cells to the placement counters. -/
def CountInv (s : Game) : Prop :=
  ∀ p : Player, liveCount p s.board ≤ s.emojiCounts p ∧
    s.emojiCounts p ≤ MAX_EMOJIS_PER_PLAYER

lemma countInv_init : CountInv initialGame := by
  intro p
  constructor
  · simp [liveCount, initialGame, ownedVal]
  · norm_num [initialGame, MAX_EMOJIS_PER_PLAYER]

lemma countInv_click (s : Game) (hInv : CountInv s) (i : Fin 9) (g d : String) :
    CountInv (handleCellClick s i g d).1 := by
  by_cases hcond : (s.board i).isSome = true ∨ s.gameState ≠ GameState.playing ∨
      MAX_EMOJIS_PER_PLAYER ≤ s.emojiCounts s.currentPlayer
  · rw [handleCellClick_invalid s i g d hcond]
    exact hInv
  · obtain ⟨hb, hc, _, _⟩ := handleCellClick_valid_fields s i g d hcond
    push_neg at hcond
    obtain ⟨hocc, _, hcnt⟩ := hcond
    have hempty : s.board i = none := by
      cases hbi : s.board i with
      | none => rfl
      | some c => rw [hbi] at hocc; simp at hocc
    intro p
    rw [hb, hc, liveCount_update p s.board i _ hempty]
    by_cases hp : p = s.currentPlayer
    · rw [hp, Function.update_same]
      have h1 := (hInv s.currentPlayer).1
      have h2 : ownedVal s.currentPlayer
          (some ⟨g, s.currentPlayer, BLINK_DURATION, d⟩) = 1 := by
        simp [ownedVal]
      omega
    · rw [Function.update_noteq hp]
      have h2 : ownedVal p (some ⟨g, s.currentPlayer, BLINK_DURATION, d⟩) = 0 := by
        simp [ownedVal]
        exact fun h => hp h.symm
      have h1 := hInv p
      omega

lemma countInv_age (s : Game) (hInv : CountInv s) : CountInv (ageStep s) := by
  have hb : (ageStep s).board = agedBoard s.board := by
    rw [ageStep, evaluateOutcome_board, ageEmojis_board]
  have hc : (ageStep s).emojiCounts = s.emojiCounts := by
    rw [ageStep, evaluateOutcome_emojiCounts, ageEmojis_emojiCounts]
  intro p
  rw [hb, hc]
  exact ⟨(liveCount_aged_le p s.board).trans (hInv p).1, (hInv p).2⟩

/-- The counter invariant holds in every reachable state. -/
lemma countInv_reachable (s : Game) (h : Reachable s) : CountInv s := by
  induction h with
  | init => exact countInv_init
  | step _ hstep ih =>
      cases hstep with
      | click i g d => exact countInv_click _ ih i g d
      | age => exact countInv_age _ ih
      | reset => exact countInv_init

/-- C4: in every reachable state, a player owns at most
`MAX_EMOJIS_PER_PLAYER` (6) live cells. -/
theorem live_cells_bounded (s : Game) (h : Reachable s) (p : Player) :
    liveCount p s.board ≤ MAX_EMOJIS_PER_PLAYER :=
  ((countInv_reachable s h p).1).trans ((countInv_reachable s h p).2)

/-- Instance of `live_cells_bounded` one click into the game. -/
theorem live_cells_bounded_witness :
    liveCount Player.P1 (handleCellClick initialGame 0 "f" "a").1.board ≤
      MAX_EMOJIS_PER_PLAYER :=
  live_cells_bounded (handleCellClick initialGame 0 "f" "a").1
    (Reachable.step Reachable.init (Step.click initialGame 0 "f" "a")) Player.P1

/-- Inductive invariant bounding every live cell's remaining lifetime. -/
def LifeInv (s : Game) : Prop :=
  ∀ i : Fin 9, ∀ c : CellValue, s.board i = some c → c.turnsLeft ≤ BLINK_DURATION

lemma lifeInv_init : LifeInv initialGame := by
  intro i c h
  simp [initialGame] at h

lemma lifeInv_click (s : Game) (hL : LifeInv s) (i : Fin 9) (g d : String) :
    LifeInv (handleCellClick s i g d).1 := by
  by_cases hcond : (s.board i).isSome = true ∨ s.gameState ≠ GameState.playing ∨
      MAX_EMOJIS_PER_PLAYER ≤ s.emojiCounts s.currentPlayer
  · rw [handleCellClick_invalid s i g d hcond]
    exact hL
  · obtain ⟨hb, _, _, _⟩ := handleCellClick_valid_fields s i g d hcond
    intro j c hj
    rw [hb] at hj
    by_cases hji : j = i
    · subst hji
      rw [Function.update_same] at hj
      cases hj
      exact le_rfl
    · rw [Function.update_noteq hji] at hj
      exact hL j c hj

lemma lifeInv_age (s : Game) (hL : LifeInv s) : LifeInv (ageStep s) := by
  have hb : (ageStep s).board = agedBoard s.board := by
    rw [ageStep, evaluateOutcome_board, ageEmojis_board]
  intro j c hj
  rw [hb, agedBoard_apply] at hj
  cases hbj : s.board j with
  | none => rw [hbj] at hj; exact absurd hj (by simp)
  | some c0 =>
      rw [hbj] at hj
      by_cases h1 : c0.turnsLeft ≤ 1
      · simp [h1] at hj
      · simp [h1] at hj
        have h3 := hL j c0 hbj
        have h4 : c.turnsLeft = c0.turnsLeft - 1 := by
          rw [← hj]
        omega

/-- The lifetime invariant holds in every reachable state. -/
lemma lifeInv_reachable (s : Game) (h : Reachable s) : LifeInv s := by
  induction h with
  | init => exact lifeInv_init
  | step _ hstep ih =>
      cases hstep with
      | click i g d => exact lifeInv_click _ ih i g d
      | age => exact lifeInv_age _ ih
      | reset => exact lifeInv_init

/-- C6: every live cell of a reachable state has `turnsLeft` in
`[0, BLINK_DURATION]` (the lower bound holds because lifetimes are natural
numbers); a valid move creates its cell with exactly `BLINK_DURATION`; and an
aging pass empties a slot exactly when the slot was already empty or its
cell's decremented lifetime reaches 0 — so lifetimes never pass below 0. -/
theorem cell_lifetime_in_range :
    (∀ s : Game, Reachable s → ∀ i : Fin 9, ∀ c : CellValue,
        s.board i = some c → c.turnsLeft ≤ BLINK_DURATION) ∧
    (∀ s : Game, ∀ i : Fin 9, ∀ g d : String,
        s.board i = none → s.gameState = GameState.playing →
        s.emojiCounts s.currentPlayer < MAX_EMOJIS_PER_PLAYER →
        (handleCellClick s i g d).1.board i =
          some { emoji := g, player := s.currentPlayer, turnsLeft := BLINK_DURATION, id := d }) ∧
    (∀ b : Board, ∀ i : Fin 9,
        agedBoard b i = none ↔
          b i = none ∨ ∃ c : CellValue, b i = some c ∧ c.turnsLeft - 1 = 0) := by
  refine ⟨fun s h => lifeInv_reachable s h, fun s i g d hempty hplay hcnt => ?_, fun b i => ?_⟩
  · have hcond : ¬ ((s.board i).isSome = true ∨ s.gameState ≠ GameState.playing ∨
        MAX_EMOJIS_PER_PLAYER ≤ s.emojiCounts s.currentPlayer) := by
      push_neg
      exact ⟨by simp [hempty], hplay, by omega⟩
    obtain ⟨hb, _, _, _⟩ := handleCellClick_valid_fields s i g d hcond
    rw [hb, Function.update_same]
  · rw [agedBoard_apply]
    cases hbi : b i with
    | none => simp
    | some c =>
        by_cases h1 : c.turnsLeft ≤ 1
        · simp only [if_pos h1]
          constructor
          · intro _
            exact Or.inr ⟨c, rfl, by omega⟩
          · intro _
            trivial
        · simp only [if_neg h1]
          constructor
          · intro h
            exact absurd h (by simp)
          · rintro (h | ⟨c', hc', hz⟩)
            · exact absurd h (by simp)
            · cases hc'
              omega

/-- Instance of `cell_lifetime_in_range`: the first placed cell starts with
`BLINK_DURATION` turns left. -/
theorem cell_lifetime_in_range_witness :
    (initialGame.board 3 = none ∧ initialGame.gameState = GameState.playing ∧
        initialGame.emojiCounts initialGame.currentPlayer < MAX_EMOJIS_PER_PLAYER) ∧
      (handleCellClick initialGame 3 "g" "b").1.board 3 =
        some { emoji := "g", player := Player.P1, turnsLeft := BLINK_DURATION, id := "b" } :=
  ⟨⟨rfl, rfl, by decide⟩,
    cell_lifetime_in_range.2.1 initialGame 3 "g" "b" rfl rfl (by decide)⟩

/-- C10: placement counters never decrease within a game — aging passes keep
them exactly, clicks never lower them — every reachable state keeps both at
or below `MAX_EMOJIS_PER_PLAYER`, and once both counters are at the maximum
every further move attempt is rejected with no state change (so, the counters
being frozen from then on, moves stay rejected until a reset). -/
theorem placement_counters_monotone :
    (∀ s : Game, (ageStep s).emojiCounts = s.emojiCounts) ∧
    (∀ s : Game, ∀ i : Fin 9, ∀ g d : String, ∀ p : Player,
        s.emojiCounts p ≤ (handleCellClick s i g d).1.emojiCounts p) ∧
    (∀ s : Game, Reachable s → ∀ p : Player, s.emojiCounts p ≤ MAX_EMOJIS_PER_PLAYER) ∧
    (∀ s : Game, ∀ i : Fin 9, ∀ g d : String,
        s.emojiCounts Player.P1 = MAX_EMOJIS_PER_PLAYER →
        s.emojiCounts Player.P2 = MAX_EMOJIS_PER_PLAYER →
        handleCellClick s i g d = (s, false)) := by
  refine ⟨fun s => ?_, fun s i g d p => ?_, fun s h p => (countInv_reachable s h p).2,
    fun s i g d h1 h2 => ?_⟩
  · rw [ageStep, evaluateOutcome_emojiCounts, ageEmojis_emojiCounts]
  · by_cases hcond : (s.board i).isSome = true ∨ s.gameState ≠ GameState.playing ∨
        MAX_EMOJIS_PER_PLAYER ≤ s.emojiCounts s.currentPlayer
    · rw [handleCellClick_invalid s i g d hcond]
    · obtain ⟨_, hc, _, _⟩ := handleCellClick_valid_fields s i g d hcond
      rw [hc]
      by_cases hp : p = s.currentPlayer
      · rw [hp, Function.update_same]
        omega
      · rw [Function.update_noteq hp]
  · apply handleCellClick_invalid
    refine Or.inr (Or.inr ?_)
    cases hcp : s.currentPlayer with
    | P1 => rw [h1]
    | P2 => rw [h2]

/-- A state in which both players have used all six placements. -/
def cappedGame : Game := { initialGame with emojiCounts := fun _ => MAX_EMOJIS_PER_PLAYER }

/-- Instance of `placement_counters_monotone`: with both counters at 6 a
click is rejected outright. -/
theorem placement_counters_monotone_witness :
    (cappedGame.emojiCounts Player.P1 = MAX_EMOJIS_PER_PLAYER ∧
        cappedGame.emojiCounts Player.P2 = MAX_EMOJIS_PER_PLAYER) ∧
      handleCellClick cappedGame 0 "f" "a" = (cappedGame, false) :=
  ⟨⟨rfl, rfl⟩, placement_counters_monotone.2.2.2 cappedGame 0 "f" "a" rfl rfl⟩

/-- A full board with no three colinear same-owner cells (a classic stalemate
pattern). -/
def fullDrawBoard : Board :=
  ![some { emoji := "f", player := Player.P1, turnsLeft := 3, id := "a0" },
    some { emoji := "w", player := Player.P2, turnsLeft := 3, id := "a1" },
    some { emoji := "f", player := Player.P1, turnsLeft := 3, id := "a2" },
    some { emoji := "f", player := Player.P1, turnsLeft := 3, id := "a3" },
    some { emoji := "w", player := Player.P2, turnsLeft := 3, id := "a4" },
    some { emoji := "w", player := Player.P2, turnsLeft := 3, id := "a5" },
    some { emoji := "w", player := Player.P2, turnsLeft := 3, id := "a6" },
    some { emoji := "f", player := Player.P1, turnsLeft := 3, id := "a7" },
    some { emoji := "w", player := Player.P2, turnsLeft := 3, id := "a8" }]

/-- A playing state holding the full stalemate board after nine moves. -/
def stalemateGame : Game := { initialGame with board := fullDrawBoard, moves := 9 }

/-- C1 fails as stated: after an aging pass on a full no-winner board with
moves made, the re-evaluation effect does NOT declare a draw — the code's
post-aging draw test (line 187) requires every slot to be null, not every
slot to be occupied — so the game stays in `playing`. -/
theorem postAging_draw_counterexample :
    stalemateGame.gameState = GameState.playing ∧
    checkWinner (ageEmojis stalemateGame).board = none ∧
    (∀ j : Fin 9, ((ageEmojis stalemateGame).board j).isSome = true) ∧
    0 < stalemateGame.moves ∧
    (ageStep stalemateGame).gameState = GameState.playing ∧
    (ageStep stalemateGame).gameState ≠ GameState.draw := by decide

/-- C1 (amended): after an aging pass completes with the game still in
`playing` and the evaluator finds no winning triple, the game becomes `draw`
exactly when the aged board has zero OCCUPIED cells and at least one move has
been made; otherwise (some live cell remains, or no move was made) it stays
in progress. -/
theorem postAging_outcome (s : Game)
    (hplay : s.gameState = GameState.playing)
    (hnw : checkWinner (agedBoard s.board) = none) :
    ((∀ j : Fin 9, agedBoard s.board j = none) ∧ 0 < s.moves →
        (ageStep s).gameState = GameState.draw) ∧
    (¬ ((∀ j : Fin 9, agedBoard s.board j = none) ∧ 0 < s.moves) →
        (ageStep s).gameState = GameState.playing) := by
  have hg : (ageEmojis s).gameState = GameState.playing := by
    rw [ageEmojis_gameState, hplay]
  have hb : (ageEmojis s).board = agedBoard s.board := ageEmojis_board s
  have hm : (ageEmojis s).moves = s.moves := ageEmojis_moves s
  unfold ageStep evaluateOutcome
  rw [if_pos hg, hb, hm, hnw]
  constructor
  · intro hc
    rw [if_pos hc]
  · intro hc
    rw [if_neg hc]
    exact hg

/-- A playing state whose single cell is about to expire, one move made. -/
def vanishingGame : Game :=
  { initialGame with
      board :=
        Function.update initialGame.board 4
          (some { emoji := "f", player := Player.P1, turnsLeft := 1, id := "a" }),
      moves := 1 }

/-- Instance of `postAging_outcome`: when the last live cell expires, the
post-aging evaluation declares a draw. -/
theorem postAging_outcome_witness :
    (vanishingGame.gameState = GameState.playing ∧
        checkWinner (agedBoard vanishingGame.board) = none ∧
        (∀ j : Fin 9, agedBoard vanishingGame.board j = none) ∧ 0 < vanishingGame.moves) ∧
      (ageStep vanishingGame).gameState = GameState.draw :=
  ⟨⟨rfl, by decide, by decide, by decide⟩,
    (postAging_outcome vanishingGame rfl (by decide)).1 ⟨by decide, by decide⟩⟩

/-- The C2 scenario, step by step: player 1 plays 0, 1, 2 in three separate
moves with non-blocking player-2 moves in between (8, then 7 — index 8 is
still occupied at move 4), each accepted move followed by its scheduled aging
pass. -/
def blitzMove1 : Game := (handleCellClick initialGame 0 "f1" "a1").1
def blitzAge1 : Game := ageStep blitzMove1
def blitzMove2 : Game := (handleCellClick blitzAge1 8 "w1" "a2").1
def blitzAge2 : Game := ageStep blitzMove2
def blitzMove3 : Game := (handleCellClick blitzAge2 1 "f2" "a3").1
def blitzAge3 : Game := ageStep blitzMove3
def blitzMove4 : Game := (handleCellClick blitzAge3 7 "w2" "a4").1
def blitzAge4 : Game := ageStep blitzMove4
def blitzMove5 : Game := (handleCellClick blitzAge4 2 "f3" "a5").1

/-- C2 fails as stated: all five moves of the scenario are accepted (the
move counter reaches 5), player 1's cells at 1 and 2 are live, yet the
evaluator does not return a player-1 win — the game is not `won`. -/
theorem blitz_win_counterexample :
    blitzMove5.moves = 5 ∧
    (blitzMove5.board 1).isSome = true ∧
    (blitzMove5.board 2).isSome = true ∧
    checkWinner blitzMove5.board ≠ some Player.P1 ∧
    blitzMove5.gameState ≠ GameState.won := by decide

/-- C2 (amended): in that scenario the cell player 1 placed at index 0 has
already been removed by aging (it ages after each of the first three moves),
so after player 1's third placement the evaluator finds no winner and the
game remains in `playing` with no winner recorded. -/
theorem blitz_win_amended :
    blitzMove5.board 0 = none ∧
    checkWinner blitzMove5.board = none ∧
    blitzMove5.gameState = GameState.playing ∧
    blitzMove5.winner = none := by decide

end BlinkTacToe
